import Mathlib

/-!
Shallow embedding of the zcache RedisConnection module and of the
multiplexing (request coalescing) cache decorator, with theorems checking
the specification claims against the embedded code.

JavaScript strings are modelled as lists of characters, byte buffers as
lists of natural numbers below 256, nullable values as options, and promise
settlement as explicit outcome values. The external snappy compression
library is modelled as an oracle record supplied as a parameter; a failure
of an oracle call is observed by the catch handler of the source.
-/

/-- Base64 alphabet used by the Buffer conversions of the source. -/
def b64Alphabet : List Char :=
  ("ABCDEFGHIJKLMNOPQRSTUVWXYZabcdefghijklmnopqrstuvwxyz0123456789+/".toList)

/-- Character for a six bit group. -/
def b64Char (n : Nat) : Char := b64Alphabet.getD n '='

/-- Index of a base64 character, 64 when the character is outside the alphabet. -/
def b64Index (c : Char) : Nat :=
  match b64Alphabet.findIdx? (fun d => d == c) with
  | some i => i
  | none => 64

/-- Encode a byte list (each entry below 256) in padded base64, as the
Buffer base64 conversion of node does. -/
def base64EncodeBytes : List Nat → List Char
  | b1 :: b2 :: b3 :: rest =>
      b64Char (b1 / 4) :: b64Char (b1 % 4 * 16 + b2 / 16) ::
        b64Char (b2 % 16 * 4 + b3 / 64) :: b64Char (b3 % 64) :: base64EncodeBytes rest
  | [b1, b2] => [b64Char (b1 / 4), b64Char (b1 % 4 * 16 + b2 / 16), b64Char (b2 % 16 * 4), '=']
  | [b1] => [b64Char (b1 / 4), b64Char (b1 % 4 * 16), '=', '=']
  | [] => []

/-- Decode padded base64 characters back to a byte list. -/
def base64DecodeChars : List Char → List Nat
  | c1 :: c2 :: c3 :: c4 :: rest =>
      if c3 = '=' then [b64Index c1 * 4 + b64Index c2 / 16]
      else if c4 = '=' then
        [b64Index c1 * 4 + b64Index c2 / 16, b64Index c2 % 16 * 16 + b64Index c3 / 4]
      else
        (b64Index c1 * 4 + b64Index c2 / 16) :: (b64Index c2 % 16 * 16 + b64Index c3 / 4) ::
          (b64Index c3 % 4 * 64 + b64Index c4) :: base64DecodeChars rest
  | _ => []

/-- Compressed value marker of the source (the snappy tag, eight characters). -/
def compressedTag : List Char := ['@', 's', 'n', 'a', 'p', 'p', 'y', '@']

/-- Uncompressed value marker of the source (the orig tag, six characters). -/
def uncompressedTag : List Char := ['@', 'o', 'r', 'i', 'g', '@']

/-- Size pivot above which values are eligible for compression. -/
def snappyPivot : Nat := 750

/-- Oracle for the external snappy library. Compression turns a string into a
byte buffer; uncompression turns a byte buffer back into a string. Either
call may fail, and a failure is observed by the catch handler of the source. -/
structure SnappyLib where
  compress : List Char → Except String (List Nat)
  uncompress : List Nat → Except String (List Char)

/-- JavaScript truthiness of a nullable string: null, undefined and the
empty string are falsy. -/
def jsFalsy : Option (List Char) → Bool
  | none => true
  | some s => s.isEmpty

/-- Connection state relevant to the value codec: the compression flag taken
from the constructor options, and the compression library. -/
structure RedisConnection where
  compressionEnabled : Bool
  snappy : SnappyLib

/-- Embedding of the private compress method of RedisConnection (source lines
286 to 303): falsy values and disabled compression pass through untouched;
values longer than the pivot are compressed and tagged on success and fall
back to the uncompressed tag on failure; shorter values always get the
uncompressed tag. The function is total: no compression error escapes. -/
def RedisConnection._compress (c : RedisConnection) (value : Option (List Char)) :
    Option (List Char) :=
  if jsFalsy value || !c.compressionEnabled then value
  else
    match value with
    | none => none
    | some v =>
      if v.length > snappyPivot then
        match c.snappy.compress v with
        | Except.ok compressed => some (compressedTag ++ base64EncodeBytes compressed)
        | Except.error _ => some (uncompressedTag ++ v)
      else some (uncompressedTag ++ v)

/-- Embedding of the private uncompress method of RedisConnection (source
lines 311 to 329). Markers are always inspected, independent of the
compression flag, because stored entries may predate a configuration change.
A failing decompression yields a miss (none), not an error. -/
def RedisConnection._uncompress (c : RedisConnection) (value : Option (List Char)) :
    Option (List Char) :=
  if jsFalsy value then value
  else
    match value with
    | none => none
    | some v =>
      if List.isPrefixOf compressedTag v then
        match c.snappy.uncompress (base64DecodeChars (v.drop compressedTag.length)) with
        | Except.ok s => some s
        | Except.error _ => none
      else if List.isPrefixOf uncompressedTag v then
        some (v.drop uncompressedTag.length)
      else some v

/-- Concrete instantiation of the snappy oracle used by closed witnesses: the
transform between characters and their character codes. -/
def asciiLib : SnappyLib :=
  ⟨fun s => Except.ok (s.map Char.toNat), fun bs => Except.ok (bs.map Char.ofNat)⟩

/-- Error object carried by a rejected promise. An object is always truthy in
JavaScript, so reasons of this type always pass a truthiness test. -/
structure JsError where
  msg : String
  deriving DecidableEq

/-- Split a character list at every occurrence of a separator, as the
JavaScript split of a string at a one character separator does. -/
def splitOnChar (sep : Char) (cs : List Char) : List (List Char) :=
  match cs with
  | [] => [[]]
  | c :: rest =>
    match splitOnChar sep rest with
    | [] => [[c]]
    | h :: t => if c = sep then [] :: h :: t else (c :: h) :: t

/-- JavaScript trim: strip whitespace from both ends. -/
def jsTrim (cs : List Char) : List Char :=
  List.reverse (List.dropWhile Char.isWhitespace
    (List.reverse (List.dropWhile Char.isWhitespace cs)))

/-- JavaScript indexOf for a single character: position of the first
occurrence, or minus one. -/
def jsIndexOfChar (cs : List Char) (c : Char) : Int :=
  match cs.findIdx? (fun d => d == c) with
  | some i => (i : Int)
  | none => -1

/-- JavaScript parseInt with radix ten on a possibly undefined string, for
the nonnegative decimal fields of the diagnostics output: none models NaN
(undefined input, or no leading digits after whitespace). -/
def jsParseInt10 (s : Option (List Char)) : Option Nat :=
  match s with
  | none => none
  | some t =>
    let ds := (t.dropWhile Char.isWhitespace).takeWhile Char.isDigit
    if ds.isEmpty then none
    else some (ds.foldl (fun n c => n * 10 + (c.toNat - 48)) 0)

/-- Assignment into a JavaScript object modelled as an association list in
insertion order: overwriting keeps the original position, a new key is
appended. -/
def jsSet {κ β : Type} [DecidableEq κ] (m : List (κ × β)) (k : κ) (v : β) :
    List (κ × β) :=
  if m.any (fun p => decide (p.1 = k)) then
    m.map (fun p => if p.1 = k then (k, v) else p)
  else m ++ [(k, v)]

/-- The item map built by getServerInfo (source lines 159 to 163): keep the
lines holding a colon past position zero, trim each, split at colons, and
record the first piece as key and the second as value. -/
def parseInfoItems (out : List Char) : List (List Char × Option (List Char)) :=
  ((splitOnChar '\n' out).filter (fun line => decide (0 < jsIndexOfChar line ':'))).foldl
    (fun acc line =>
      let parts := splitOnChar ':' (jsTrim line)
      jsSet acc (parts.getD 0 []) parts[1]?) []

/-- Snapshot record parsed from the diagnostics text. A field is none when
its parse produced NaN or when the assignment was never reached because the
try block threw earlier. -/
structure ServerInfo where
  memoryBytes : Option Nat
  memoryRssBytes : Option Nat
  evictedKeys : Option Nat
  numOfConnections : Option Nat
  numOfKeys : Option Nat
  deriving DecidableEq

/-- Embedding of getServerInfo post processing (source lines 154 to 177).
Only the db0 access can throw inside the try block (a missing field makes
the split call fail); the catch handler of the source builds a rejected
promise but never returns it, so the call always resolves with whatever
record was populated up to that point. -/
def RedisConnection.getServerInfo (infoCmdOutput : List Char) : ServerInfo :=
  let items := parseInfoItems infoCmdOutput
  let itemAt := fun (k : List Char) => (List.lookup k items).getD none
  let base : ServerInfo :=
    { memoryBytes := jsParseInt10 (itemAt (("used_memory").toList))
      memoryRssBytes := jsParseInt10 (itemAt (("used_memory_rss").toList))
      evictedKeys := jsParseInt10 (itemAt (("evicted_keys").toList))
      numOfConnections := jsParseInt10 (itemAt (("connected_clients").toList))
      numOfKeys := none }
  match itemAt (("db0").toList) with
  | none => base
  | some dbv =>
      { base with
          numOfKeys := jsParseInt10 (splitOnChar '=' ((splitOnChar ',' dbv).getD 0 []))[1]? }

/-- State of one node resolver with timeout (source lines 255 to 278): the
timeout flag, whether the timer was cleared or has fired, the settlement of
the caller facing deferred, the timeout counter of the operation name, and
the recorded latency updates of the operation name. -/
structure ResolverState (α : Type) where
  isTimeout : Bool
  timerCleared : Bool
  timerFired : Bool
  deferredOutcome : Option (Except JsError α)
  timeoutCount : Nat
  latencyUpdates : List Nat

/-- Resolver state right after dispatch: timer armed, nothing settled. -/
def resolverInit {α : Type} : ResolverState α :=
  ⟨false, false, false, none, 0, []⟩

/-- The timeout error built by the source for an operation description. -/
def timeoutErrorFor (opDesc : String) : JsError :=
  ⟨("Cache request timeout. ") ++ opDesc⟩

/-- The timer callback (source lines 261 to 265): it can only run while the
timer is neither cleared nor already fired; it rejects the deferred with the
timeout error, sets the timeout flag and bumps the timeout counter. -/
def fireTimeout {α : Type} (opDesc : String) (s : ResolverState α) : ResolverState α :=
  if s.timerCleared || s.timerFired then s
  else
    { s with
        deferredOutcome := some (Except.error (timeoutErrorFor opDesc))
        isTimeout := true
        timerFired := true
        timeoutCount := s.timeoutCount + 1 }

/-- The completion callback (source lines 267 to 277): it always records the
elapsed time in the latency statistic first; then, only when the timeout has
not fired, it clears the timer and settles the deferred from the node style
error and data arguments. -/
def resolverComplete {α : Type} (err : Option JsError) (data : α) (elapsed : Nat)
    (s : ResolverState α) : ResolverState α :=
  let s1 := { s with latencyUpdates := s.latencyUpdates ++ [elapsed] }
  if s1.isTimeout then s1
  else
    { s1 with
        timerCleared := true
        deferredOutcome :=
          some (match err with
                | some e => Except.error e
                | none => Except.ok data) }

/-- Cache keys are exact strings. -/
abbrev CacheKey := String

/-- One item of a multi set call. -/
structure MsetItem where
  key : CacheKey
  value : String
  deriving DecidableEq

/-- A call forwarded to the delegate cache instance. -/
inductive DelegateCall where
  | mget (keys : List CacheKey)
  | set (key : CacheKey) (val : String) (maxAgeMs : Nat) (setWhenNotExist : Bool)
  | mset (items : List MsetItem) (maxAgeMs : Nat) (setWhenNotExist : Bool)
  | incr (key : CacheKey) (increment : Option Nat)
  | del (key : CacheKey)
  deriving DecidableEq

/-- Observable event of a multiplexing cache operation: an invalidation of
index entries, or a dispatch to the delegate. Events are listed in the order
the statements of the source run. -/
inductive MuxEvent where
  | invalidate (keys : List CacheKey)
  | dispatch (c : DelegateCall)
  deriving DecidableEq

/-- Instance state of the multiplexing cache: the invalidation index mapping
a key to its pending promise (identified by a number), plus an allocator for
fresh promise identities. -/
structure MultiplexingCache where
  pendingGets : CacheKey → Option Nat
  nextId : Nat

/-- A fresh multiplexing cache: empty index. -/
def muxInit : MultiplexingCache := ⟨fun _ => none, 0⟩

/-- Computation over one multiplexing cache instance: from a state, produce
the next state, the trace of events, and a result. -/
def MuxM (α : Type) : Type := MultiplexingCache → MultiplexingCache × List MuxEvent × α

/-- Pure computation: no state change, no event. -/
def mreturn {α : Type} (a : α) : MuxM α := fun s => (s, [], a)

/-- Sequencing of computations: run the first, feed its result to the second,
concatenate the event traces in order. -/
def mbind {α β : Type} (m : MuxM α) (f : α → MuxM β) : MuxM β := fun s =>
  let r := m s
  let r2 := f r.2.2 r.1
  (r2.1, r.2.1 ++ r2.2.1, r2.2.2)

/-- Read the pending promise of a key from the invalidation index. -/
def readPending (key : CacheKey) : MuxM (Option Nat) :=
  fun s => (s, [], s.pendingGets key)

/-- Store a promise in the invalidation index for one key. -/
def writePending (key : CacheKey) (pid : Nat) : MuxM Unit :=
  fun s =>
    ({ s with pendingGets := fun k => if k = key then some pid else s.pendingGets k }, [], ())

/-- Store one promise in the invalidation index for every key of a batch
(the registration loop of mget, source lines 545 to 547). -/
def registerAll (keys : List CacheKey) (pid : Nat) : MuxM Unit :=
  fun s =>
    ({ s with pendingGets := fun k => if k ∈ keys then some pid else s.pendingGets k }, [], ())

/-- Embedding of the private invalidateKeys method (source lines 583 to 588):
delete the index entry of every listed key. For mset the caller passes the
item keys, mirroring the dynamic type test of the source. -/
def MultiplexingCache._invalidateKeys (keys : List CacheKey) : MuxM Unit :=
  fun s =>
    ({ s with pendingGets := fun k => if k ∈ keys then none else s.pendingGets k },
     [MuxEvent.invalidate keys], ())

/-- Dispatch one call to the delegate and allocate the identity of the
promise the delegate returns. -/
def delegateOp (c : DelegateCall) : MuxM Nat :=
  fun s => ({ s with nextId := s.nextId + 1 }, [MuxEvent.dispatch c], s.nextId)

/-- Embedding of the private mget of the multiplexing cache (source lines 597
to 614) at dispatch time: one delegate mget for the batch, yielding the
shared promise. Its settlement behaviour is the separate settleMget below. -/
def MultiplexingCache._mget (keys : List CacheKey) : MuxM Nat :=
  delegateOp (DelegateCall.mget keys)

/-- Embedding of get (source lines 516 to 523): reuse the pending promise of
the key when the index has one, otherwise issue a batch of one key and
register its promise. -/
def MultiplexingCache.get (key : CacheKey) : MuxM Nat :=
  mbind (readPending key) (fun existing =>
    match existing with
    | some pid => mreturn pid
    | none =>
        mbind (MultiplexingCache._mget [key]) (fun pid =>
          mbind (writePending key pid) (fun _ => mreturn pid)))

/-- The partition loop of mget (source lines 532 to 539): walk the keys in
caller order, collecting the pending promises of known keys and the keys
still to fetch. -/
def partitionKeys (p : CacheKey → Option Nat) (keys : List CacheKey) :
    List Nat × List CacheKey :=
  keys.foldl
    (fun acc k =>
      match p k with
      | some pid => (acc.1 ++ [pid], acc.2)
      | none => (acc.1, acc.2 ++ [k])) ([], [])

/-- Embedding of mget (source lines 527 to 548) up to the settlement join: the
partition, at most one new batch for the keys to fetch, and the registration
of that single promise for every one of those keys. The result is the list
of promises to wait for and the keys of the new batch. -/
def MultiplexingCache.mget (keys : List CacheKey) : MuxM (List Nat × List CacheKey) :=
  mbind (fun s => (s, [], partitionKeys s.pendingGets keys)) (fun pr =>
    if pr.2.isEmpty then mreturn pr
    else
      mbind (MultiplexingCache._mget pr.2) (fun pid =>
        mbind (registerAll pr.2 pid) (fun _ => mreturn (pr.1 ++ [pid], pr.2))))

/-- Outcome of the delegate mget a batch was waiting on. -/
inductive MgetOutcome where
  | success (results : List (Option String))
  | failure (e : JsError)

/-- Settlement state of one awaited promise, as the allSettled join reports
it: fulfilled with a key to value map, or rejected with a reason. -/
inductive Settled (α : Type) where
  | fulfilled (value : α)
  | rejected (reason : JsError)
  deriving DecidableEq

/-- Embedding of the private convertToMap helper (source lines 625 to 636):
turn a positional result list into a key to value map; a missing position is
undefined. -/
def MultiplexingCache._convertToMap (keys : List CacheKey)
    (results : Option (List (Option String))) : List (CacheKey × Option String) :=
  match results with
  | none => []
  | some rs => keys.enum.foldl (fun acc p => jsSet acc p.2 (rs[p.1]?.getD none)) []

/-- Settlement of the private mget (source lines 604 to 613): on both success
and failure the index entries of exactly the batch keys are removed first;
success then yields the fulfilled key to value map, failure re-raises the
cause as a rejection. -/
def MultiplexingCache.settleMget (keys : List CacheKey) (o : MgetOutcome) :
    MuxM (Settled (List (CacheKey × Option String))) :=
  match o with
  | MgetOutcome.success results =>
      mbind (MultiplexingCache._invalidateKeys keys) (fun _ =>
        mreturn (Settled.fulfilled (MultiplexingCache._convertToMap keys (some results))))
  | MgetOutcome.failure e =>
      mbind (MultiplexingCache._invalidateKeys keys) (fun _ =>
        mreturn (Settled.rejected e))

/-- The payload of a partial result error: the merged success map and the
failure map. -/
structure PartialResultError where
  data : List (CacheKey × Option String)
  errors : List (CacheKey × JsError)
  deriving DecidableEq

/-- Embedding of the aggregation callback of mget (source lines 551 to 575).
The success map merges the maps of the fulfilled settlements in order. A
rejected settlement writes its reason into the error map under the variable
named key of the enclosing scope, which after the partition loop holds the
last element of the caller key list (undefined when the list is empty). With
no errors the values are returned in caller key order; otherwise a partial
result error carries both maps. -/
def MultiplexingCache.mgetAggregate (keys : List CacheKey)
    (maps : List (Settled (List (CacheKey × Option String)))) :
    Except PartialResultError (List (Option String)) :=
  let errKey := (keys.getLast?).getD ("undefined")
  let agg := maps.foldl
    (fun (acc : List (CacheKey × Option String) × List (CacheKey × JsError)) m =>
      match m with
      | Settled.fulfilled kvs => (kvs.foldl (fun a p => jsSet a p.1 p.2) acc.1, acc.2)
      | Settled.rejected r => (acc.1, jsSet acc.2 errKey r)) ([], [])
  if agg.2.isEmpty then
    Except.ok (keys.map (fun k => (List.lookup k agg.1).getD none))
  else Except.error ⟨agg.1, agg.2⟩

/-- Embedding of set on the multiplexing cache (source lines 503 to 506):
invalidate the key, then forward unconditionally to the delegate. -/
def MultiplexingCache.set (key : CacheKey) (val : String) (maxAgeMs : Nat)
    (setWhenNotExist : Bool) : MuxM Nat :=
  mbind (MultiplexingCache._invalidateKeys [key]) (fun _ =>
    delegateOp (DelegateCall.set key val maxAgeMs setWhenNotExist))

/-- Embedding of mset on the multiplexing cache (source lines 489 to 492):
invalidate the key of every item, then forward unconditionally. -/
def MultiplexingCache.mset (items : List MsetItem) (maxAgeMs : Nat)
    (setWhenNotExist : Bool) : MuxM Nat :=
  mbind (MultiplexingCache._invalidateKeys (items.map MsetItem.key)) (fun _ =>
    delegateOp (DelegateCall.mset items maxAgeMs setWhenNotExist))

/-- Embedding of incr on the multiplexing cache (source lines 496 to 499). -/
def MultiplexingCache.incr (key : CacheKey) (increment : Option Nat) : MuxM Nat :=
  mbind (MultiplexingCache._invalidateKeys [key]) (fun _ =>
    delegateOp (DelegateCall.incr key increment))

/-- Embedding of del on the multiplexing cache (source lines 510 to 513). -/
def MultiplexingCache.del (key : CacheKey) : MuxM Nat :=
  mbind (MultiplexingCache._invalidateKeys [key]) (fun _ =>
    delegateOp (DelegateCall.del key))

/-- The base64 index inverts the base64 character map on six bit groups. -/
theorem b64_index_char : ∀ n, n < 64 → b64Index (b64Char n) = n := by decide

/-- No six bit group is rendered as the padding character. -/
theorem b64Char_ne_pad : ∀ n, n < 64 → ¬ b64Char n = '=' := by decide

/-- Decoding inverts encoding on byte lists whose entries are below 256. -/
theorem base64_decode_encode :
    ∀ (bs : List Nat), (∀ b ∈ bs, b < 256) →
      base64DecodeChars (base64EncodeBytes bs) = bs
  | [], _ => rfl
  | [b1], h => by
      have hb1 : b1 < 256 := h b1 (by simp)
      show base64DecodeChars [b64Char (b1 / 4), b64Char (b1 % 4 * 16), '=', '='] = [b1]
      simp only [base64DecodeChars, eq_self_iff_true, if_true]
      rw [b64_index_char _ (by omega), b64_index_char _ (by omega)]
      simp only [List.cons.injEq, and_true]
      omega
  | [b1, b2], h => by
      have hb1 : b1 < 256 := h b1 (by simp)
      have hb2 : b2 < 256 := h b2 (by simp)
      show base64DecodeChars
          [b64Char (b1 / 4), b64Char (b1 % 4 * 16 + b2 / 16), b64Char (b2 % 16 * 4), '='] = [b1, b2]
      simp only [base64DecodeChars]
      rw [if_neg (b64Char_ne_pad _ (by omega))]
      rw [if_pos trivial]
      rw [b64_index_char _ (by omega), b64_index_char _ (by omega), b64_index_char _ (by omega)]
      simp only [List.cons.injEq, and_true]
      omega
  | b1 :: b2 :: b3 :: rest, h => by
      have hb1 : b1 < 256 := h b1 (by simp)
      have hb2 : b2 < 256 := h b2 (by simp)
      have hb3 : b3 < 256 := h b3 (by simp)
      have ih := base64_decode_encode rest (fun b hb => h b (by simp [hb]))
      show base64DecodeChars
          (b64Char (b1 / 4) :: b64Char (b1 % 4 * 16 + b2 / 16) ::
            b64Char (b2 % 16 * 4 + b3 / 64) :: b64Char (b3 % 64) :: base64EncodeBytes rest)
        = b1 :: b2 :: b3 :: rest
      simp only [base64DecodeChars]
      rw [if_neg (b64Char_ne_pad _ (by omega)), if_neg (b64Char_ne_pad _ (by omega))]
      rw [b64_index_char _ (by omega), b64_index_char _ (by omega),
        b64_index_char _ (by omega), b64_index_char _ (by omega)]
      rw [ih]
      simp only [List.cons.injEq, eq_self_iff_true, and_true]
      omega

/-- Decoding a value carrying the uncompressed marker strips the marker. -/
theorem uncompress_of_uncompressedTag (c : RedisConnection) (w : List Char) :
    c._uncompress (some (uncompressedTag ++ w)) = some w := by
  simp [RedisConnection._uncompress, jsFalsy, uncompressedTag, compressedTag, List.isPrefixOf]

/-- Decoding a value carrying the compressed marker base64 decodes the rest
and runs the library, mapping a library failure to a miss. -/
theorem uncompress_of_compressedTag (c : RedisConnection) (w : List Char) :
    c._uncompress (some (compressedTag ++ w)) =
      (match c.snappy.uncompress (base64DecodeChars w) with
       | Except.ok s => some s
       | Except.error _ => none) := by
  cases hres : c.snappy.uncompress (base64DecodeChars w) <;>
    simp [RedisConnection._uncompress, jsFalsy, uncompressedTag, compressedTag,
      List.isPrefixOf, hres]

/-- Claim C3: the encode path is a total case split. A null value, an empty
value or disabled compression returns the input untouched with no tag; with
compression enabled, a value longer than 750 yields the compressed tag plus
base64 of the compressed bytes when the library succeeds, and falls back to
the uncompressed tag plus the original value when the library fails (the
failure never reaches the caller, the function being total); a non empty
value of length at most 750 always yields the uncompressed tag plus the
value. -/
theorem C3_encode_cases (lib : SnappyLib) (b : Bool) (v : List Char) :
    RedisConnection._compress ⟨b, lib⟩ none = none
  ∧ RedisConnection._compress ⟨b, lib⟩ (some []) = some []
  ∧ RedisConnection._compress ⟨false, lib⟩ (some v) = some v
  ∧ RedisConnection._compress ⟨true, lib⟩ (some v) =
      (if v.isEmpty then some v
       else if v.length > snappyPivot then
         match lib.compress v with
         | Except.ok compressed => some (compressedTag ++ base64EncodeBytes compressed)
         | Except.error _ => some (uncompressedTag ++ v)
       else some (uncompressedTag ++ v)) := by
  refine ⟨rfl, rfl, by simp [RedisConnection._compress, jsFalsy], ?_⟩
  by_cases hv : v.isEmpty
  · simp [RedisConnection._compress, jsFalsy, hv]
  · simp [RedisConnection._compress, jsFalsy, hv]

/-- Claim C2 counterexample: with compression disabled, a non empty raw value
that itself begins with the uncompressed tag is stored byte identical, but
decoding strips the tag, so the round trip does not return the value. -/
theorem C2_cex :
    RedisConnection._uncompress ⟨false, asciiLib⟩
        (RedisConnection._compress ⟨false, asciiLib⟩
          (some ['@', 'o', 'r', 'i', 'g', '@', 'x']))
      ≠ some ['@', 'o', 'r', 'i', 'g', '@', 'x'] := by decide

/-- Claim C2 (amended): for every non empty value, encode then decode round
trips with compression enabled whenever the library inverts its own
successful compressions (in particular whenever compression succeeds or is
not attempted); with compression disabled the value is returned unmodified
with no tag applied, and the round trip also returns the value provided the
raw value does not itself begin with the compressed or the uncompressed
tag. -/
theorem C2_roundtrip (lib : SnappyLib) (v : List Char) (hv : v ≠ [])
    (hlib : ∀ bs, lib.compress v = Except.ok bs →
      (∀ b ∈ bs, b < 256) ∧ lib.uncompress bs = Except.ok v) :
    RedisConnection._uncompress ⟨true, lib⟩
        (RedisConnection._compress ⟨true, lib⟩ (some v)) = some v
  ∧ RedisConnection._compress ⟨false, lib⟩ (some v) = some v
  ∧ (List.isPrefixOf compressedTag v = false →
     List.isPrefixOf uncompressedTag v = false →
     RedisConnection._uncompress ⟨false, lib⟩
        (RedisConnection._compress ⟨false, lib⟩ (some v)) = some v) := by
  have hvE : v.isEmpty = false := by
    cases v with
    | nil => exact absurd rfl hv
    | cons a t => rfl
  have hfalse : RedisConnection._compress ⟨false, lib⟩ (some v) = some v := by
    simp [RedisConnection._compress, jsFalsy]
  refine ⟨?_, hfalse, ?_⟩
  · by_cases hlen : v.length > snappyPivot
    · cases hcp : lib.compress v with
      | ok bs =>
          obtain ⟨hbnd, hun⟩ := hlib bs hcp
          have henc : RedisConnection._compress ⟨true, lib⟩ (some v)
              = some (compressedTag ++ base64EncodeBytes bs) := by
            simp [RedisConnection._compress, jsFalsy, hvE, hlen, hcp]
          rw [henc, uncompress_of_compressedTag, base64_decode_encode bs hbnd, hun]
      | error e =>
          have henc : RedisConnection._compress ⟨true, lib⟩ (some v)
              = some (uncompressedTag ++ v) := by
            simp [RedisConnection._compress, jsFalsy, hvE, hlen, hcp]
          rw [henc, uncompress_of_uncompressedTag]
    · have henc : RedisConnection._compress ⟨true, lib⟩ (some v)
          = some (uncompressedTag ++ v) := by
        simp [RedisConnection._compress, jsFalsy, hvE, hlen]
      rw [henc, uncompress_of_uncompressedTag]
  · intro hc hu
    rw [hfalse]
    simp [RedisConnection._uncompress, jsFalsy, hvE, hc, hu]

/-- Claim C2 witness: the round trip theorem applied at a concrete two
character value with the concrete character code oracle, every hypothesis
discharged there. -/
theorem C2_roundtrip_witness :
    ((['a', 'b'] : List Char) ≠ []
      ∧ (∀ bs, asciiLib.compress ['a', 'b'] = Except.ok bs →
          (∀ b ∈ bs, b < 256) ∧ asciiLib.uncompress bs = Except.ok ['a', 'b']))
  ∧ (RedisConnection._uncompress ⟨true, asciiLib⟩
        (RedisConnection._compress ⟨true, asciiLib⟩ (some ['a', 'b'])) = some ['a', 'b']
    ∧ RedisConnection._compress ⟨false, asciiLib⟩ (some ['a', 'b']) = some ['a', 'b']
    ∧ (List.isPrefixOf compressedTag ['a', 'b'] = false →
       List.isPrefixOf uncompressedTag ['a', 'b'] = false →
       RedisConnection._uncompress ⟨false, asciiLib⟩
          (RedisConnection._compress ⟨false, asciiLib⟩ (some ['a', 'b'])) = some ['a', 'b'])) := by
  have hlib : ∀ bs, asciiLib.compress ['a', 'b'] = Except.ok bs →
      (∀ b ∈ bs, b < 256) ∧ asciiLib.uncompress bs = Except.ok ['a', 'b'] := by
    intro bs h
    have h9 : (Except.ok [97, 98] : Except String (List Nat)) = Except.ok bs := h
    injection h9 with h10
    subst h10
    exact ⟨by decide, rfl⟩
  exact ⟨⟨by decide, hlib⟩, C2_roundtrip asciiLib ['a', 'b'] (by decide) hlib⟩

/-- Claim C4: decoding a stored value that begins with the compressed tag
base64 decodes the remainder and runs the library decompression, a library
failure yielding a miss (none) rather than an error surfaced to the caller;
and the decode path never reads the compression flag, so tag inspection does
not depend on the current setting. -/
theorem C4_decode_compressed (lib : SnappyLib) (b b2 : Bool) (t : List Char)
    (value : Option (List Char)) :
    RedisConnection._uncompress ⟨b, lib⟩ (some (compressedTag ++ t)) =
      (match lib.uncompress (base64DecodeChars t) with
       | Except.ok s => some s
       | Except.error _ => none)
  ∧ RedisConnection._uncompress ⟨b, lib⟩ value = RedisConnection._uncompress ⟨b2, lib⟩ value :=
  ⟨uncompress_of_compressedTag ⟨b, lib⟩ t, rfl⟩

/-- The partition loop splits the keys into the pending promises and the keys
to fetch, in caller order, starting from any accumulator. -/
theorem partitionKeys_go (p : CacheKey → Option Nat) :
    ∀ (keys : List CacheKey) (acc : List Nat × List CacheKey),
      keys.foldl
        (fun acc k =>
          match p k with
          | some pid => (acc.1 ++ [pid], acc.2)
          | none => (acc.1, acc.2 ++ [k])) acc
      = (acc.1 ++ keys.filterMap p,
         acc.2 ++ keys.filter (fun k => (p k).isNone)) := by
  intro keys
  induction keys with
  | nil => intro acc; simp
  | cons k rest ih =>
      intro acc
      cases hk : p k with
      | some pid =>
          simp only [List.foldl_cons, hk, List.filterMap_cons, List.filter_cons]
          rw [ih]
          simp [hk]
      | none =>
          simp only [List.foldl_cons, hk, List.filterMap_cons, List.filter_cons]
          rw [ih]
          simp [hk]

/-- The partition of mget equals a filterMap and a filter over the keys. -/
theorem partitionKeys_eq (p : CacheKey → Option Nat) (keys : List CacheKey) :
    partitionKeys p keys
      = (keys.filterMap p, keys.filter (fun k => (p k).isNone)) := by
  have h := partitionKeys_go p keys ([], [])
  simpa [partitionKeys] using h

/-- Claim C6: two gets for the same key issued while the first is pending
produce exactly one delegate mget containing the key (the second dispatches
nothing); and mget partitions its keys into those with a pending promise and
the remainder, dispatches at most one batch holding exactly the keys to
fetch, waits on the reused promises plus that one batch, and registers the
single new promise for every key of the batch, leaving every other index
entry unchanged, so no key ever holds more than one pending promise. -/
theorem C6_single_flight (k : CacheKey) (s : MultiplexingCache) (keys : List CacheKey) :
    (MultiplexingCache.get k muxInit).2.1 = [MuxEvent.dispatch (DelegateCall.mget [k])]
  ∧ (MultiplexingCache.get k (MultiplexingCache.get k muxInit).1).2.1 = []
  ∧ (MultiplexingCache.mget keys s).2.2.2
      = keys.filter (fun k2 => (s.pendingGets k2).isNone)
  ∧ (MultiplexingCache.mget keys s).2.2.1
      = (if (MultiplexingCache.mget keys s).2.2.2.isEmpty
         then keys.filterMap s.pendingGets
         else keys.filterMap s.pendingGets ++ [s.nextId])
  ∧ (MultiplexingCache.mget keys s).2.1
      = (if (MultiplexingCache.mget keys s).2.2.2.isEmpty then []
         else [MuxEvent.dispatch (DelegateCall.mget ((MultiplexingCache.mget keys s).2.2.2))])
  ∧ (∀ k2, (MultiplexingCache.mget keys s).1.pendingGets k2
      = (if k2 ∈ (MultiplexingCache.mget keys s).2.2.2
         then some s.nextId else s.pendingGets k2)) := by
  have hpart := partitionKeys_eq s.pendingGets keys
  refine ⟨rfl, ?_, ?_, ?_, ?_, ?_⟩
  · simp [MultiplexingCache.get, mbind, mreturn, readPending, writePending,
      MultiplexingCache._mget, delegateOp, muxInit]
  · simp only [MultiplexingCache.mget, hpart]
    by_cases he : (keys.filter (fun k2 => (s.pendingGets k2).isNone)).isEmpty <;>
      simp [he, hpart, mbind, mreturn, MultiplexingCache._mget, delegateOp, registerAll]
  · simp only [MultiplexingCache.mget, hpart]
    by_cases he : (keys.filter (fun k2 => (s.pendingGets k2).isNone)).isEmpty
    · have hnil : keys.filter (fun k2 => (s.pendingGets k2).isNone) = [] := by
        simpa [List.isEmpty_iff] using he
      simp [he, hnil, hpart, mbind, mreturn, MultiplexingCache._mget, delegateOp, registerAll]
    · have hne : ¬ keys.filter (fun k2 => (s.pendingGets k2).isNone) = [] := by
        simpa [List.isEmpty_iff] using he
      simp [he, hne, hpart, mbind, mreturn, MultiplexingCache._mget, delegateOp, registerAll]
  · simp only [MultiplexingCache.mget, hpart]
    by_cases he : (keys.filter (fun k2 => (s.pendingGets k2).isNone)).isEmpty
    · have hnil : keys.filter (fun k2 => (s.pendingGets k2).isNone) = [] := by
        simpa [List.isEmpty_iff] using he
      simp [he, hnil, hpart, mbind, mreturn, MultiplexingCache._mget, delegateOp, registerAll]
    · have hne : ¬ keys.filter (fun k2 => (s.pendingGets k2).isNone) = [] := by
        simpa [List.isEmpty_iff] using he
      simp [he, hne, hpart, mbind, mreturn, MultiplexingCache._mget, delegateOp, registerAll]
  · intro k2
    simp only [MultiplexingCache.mget, hpart]
    by_cases he : (keys.filter (fun k2 => (s.pendingGets k2).isNone)).isEmpty
    · have hnil : keys.filter (fun k2 => (s.pendingGets k2).isNone) = [] := by
        simpa [List.isEmpty_iff] using he
      simp [he, hnil, hpart, mbind, mreturn, MultiplexingCache._mget, delegateOp, registerAll]
    · have hne : ¬ keys.filter (fun k2 => (s.pendingGets k2).isNone) = [] := by
        simpa [List.isEmpty_iff] using he
      simp [he, hne, hpart, mbind, mreturn, MultiplexingCache._mget, delegateOp, registerAll]

/-- Claim C7: when an internal batch settles, on success and on failure
alike, the index entries of exactly the batch keys are removed (entries of
other keys are untouched), so a get for a batch key issued right after the
settlement dispatches to the delegate again: nothing is ever served from a
settled fetch. -/
theorem C7_settle_invalidates (s : MultiplexingCache) (keys : List CacheKey)
    (o : MgetOutcome) (k : CacheKey) (hk : k ∈ keys) :
    ((MultiplexingCache.settleMget keys o s).1.pendingGets k = none)
  ∧ (∀ k2, ¬ k2 ∈ keys →
      (MultiplexingCache.settleMget keys o s).1.pendingGets k2 = s.pendingGets k2)
  ∧ ((MultiplexingCache.get k (MultiplexingCache.settleMget keys o s).1).2.1
      = [MuxEvent.dispatch (DelegateCall.mget [k])]) := by
  refine ⟨?_, ?_, ?_⟩
  · cases o <;>
      simp [MultiplexingCache.settleMget, MultiplexingCache._invalidateKeys,
        mbind, mreturn, hk]
  · intro k2 h2
    cases o <;>
      simp [MultiplexingCache.settleMget, MultiplexingCache._invalidateKeys,
        mbind, mreturn, h2]
  · cases o <;>
      simp [MultiplexingCache.settleMget, MultiplexingCache._invalidateKeys,
        mbind, mreturn, MultiplexingCache.get, readPending, writePending,
        MultiplexingCache._mget, delegateOp, hk]

/-- Claim C7 witness: the settlement theorem applied to a failing batch for
two keys on a fresh instance, at the concrete key a. -/
theorem C7_settle_invalidates_witness :
    (("a" : CacheKey) ∈ ["a", "b"])
  ∧ (((MultiplexingCache.settleMget ["a", "b"]
          (MgetOutcome.failure ⟨("boom")⟩) muxInit).1.pendingGets ("a") = none)
    ∧ (∀ k2, ¬ k2 ∈ ["a", "b"] →
        (MultiplexingCache.settleMget ["a", "b"]
            (MgetOutcome.failure ⟨("boom")⟩) muxInit).1.pendingGets k2
          = muxInit.pendingGets k2)
    ∧ ((MultiplexingCache.get ("a")
          (MultiplexingCache.settleMget ["a", "b"]
            (MgetOutcome.failure ⟨("boom")⟩) muxInit).1).2.1
        = [MuxEvent.dispatch (DelegateCall.mget ["a"])])) :=
  ⟨by decide,
   C7_settle_invalidates muxInit ["a", "b"] (MgetOutcome.failure ⟨("boom")⟩) ("a") (by decide)⟩

/-- Claim C8: each write operation of the multiplexing cache first removes
the index entries of every key involved and then dispatches the operation,
with unchanged arguments, to the delegate: the trace of every operation is
the invalidation event followed by the dispatch event, from every starting
state, with no condition on (and no waiting for) any pending fetch. -/
theorem C8_write_invalidation (s : MultiplexingCache) (key : CacheKey) (val : String)
    (maxAgeMs : Nat) (nx : Bool) (items : List MsetItem) (increment : Option Nat) :
    ((MultiplexingCache.set key val maxAgeMs nx s).2.1
        = [MuxEvent.invalidate [key],
           MuxEvent.dispatch (DelegateCall.set key val maxAgeMs nx)]
      ∧ ∀ k2, (MultiplexingCache.set key val maxAgeMs nx s).1.pendingGets k2
          = (if k2 ∈ [key] then none else s.pendingGets k2))
  ∧ ((MultiplexingCache.mset items maxAgeMs nx s).2.1
        = [MuxEvent.invalidate (items.map MsetItem.key),
           MuxEvent.dispatch (DelegateCall.mset items maxAgeMs nx)]
      ∧ ∀ k2, (MultiplexingCache.mset items maxAgeMs nx s).1.pendingGets k2
          = (if k2 ∈ items.map MsetItem.key then none else s.pendingGets k2))
  ∧ ((MultiplexingCache.incr key increment s).2.1
        = [MuxEvent.invalidate [key],
           MuxEvent.dispatch (DelegateCall.incr key increment)]
      ∧ ∀ k2, (MultiplexingCache.incr key increment s).1.pendingGets k2
          = (if k2 ∈ [key] then none else s.pendingGets k2))
  ∧ ((MultiplexingCache.del key s).2.1
        = [MuxEvent.invalidate [key],
           MuxEvent.dispatch (DelegateCall.del key)]
      ∧ ∀ k2, (MultiplexingCache.del key s).1.pendingGets k2
          = (if k2 ∈ [key] then none else s.pendingGets k2)) := by
  refine ⟨⟨rfl, fun k2 => rfl⟩, ⟨rfl, fun k2 => rfl⟩,
    ⟨rfl, fun k2 => rfl⟩, ⟨rfl, fun k2 => rfl⟩⟩

/-- Claim C10: a multiplexing mget of an empty key list, in any index state,
waits on nothing, dispatches no delegate call, registers and removes no
index entry, and its aggregation resolves to the empty result list. -/
theorem C10_empty_mget (s : MultiplexingCache) :
    (MultiplexingCache.mget [] s).1 = s
  ∧ (MultiplexingCache.mget [] s).2.1 = []
  ∧ (MultiplexingCache.mget [] s).2.2 = ([], [])
  ∧ MultiplexingCache.mgetAggregate [] [] = Except.ok [] :=
  ⟨rfl, rfl, rfl, rfl⟩

/-- Claim C9: in the dispatch race, when the timer fires first the caller
facing deferred is rejected with the timeout error and the timeout counter of
the operation is incremented; the underlying call is not cancelled, and its
late completion still records the elapsed latency while leaving the settled
outcome exactly as the timeout left it (no double settlement). When the
completion arrives first it records the latency, clears the timer (so the
timer can never fire afterwards) and settles the deferred from the node
style arguments, with no timeout counted. -/
theorem C9_timeout_race {α : Type} (opDesc : String) (err : Option JsError)
    (data : α) (elapsed : Nat) :
    ((fireTimeout opDesc (resolverInit : ResolverState α)).deferredOutcome
        = some (Except.error (timeoutErrorFor opDesc))
      ∧ (fireTimeout opDesc (resolverInit : ResolverState α)).timeoutCount = 1
      ∧ (resolverComplete err data elapsed
            (fireTimeout opDesc (resolverInit : ResolverState α))).deferredOutcome
          = (fireTimeout opDesc (resolverInit : ResolverState α)).deferredOutcome
      ∧ (resolverComplete err data elapsed
            (fireTimeout opDesc (resolverInit : ResolverState α))).latencyUpdates = [elapsed]
      ∧ (resolverComplete err data elapsed
            (fireTimeout opDesc (resolverInit : ResolverState α))).timeoutCount = 1)
  ∧ ((resolverComplete err data elapsed (resolverInit : ResolverState α)).latencyUpdates
        = [elapsed]
      ∧ (resolverComplete err data elapsed (resolverInit : ResolverState α)).deferredOutcome
          = some (match err with
                  | some e => Except.error e
                  | none => Except.ok data)
      ∧ (resolverComplete err data elapsed (resolverInit : ResolverState α)).timeoutCount = 0
      ∧ fireTimeout opDesc (resolverComplete err data elapsed (resolverInit : ResolverState α))
          = resolverComplete err data elapsed (resolverInit : ResolverState α)) := by
  refine ⟨⟨rfl, rfl, rfl, rfl, rfl⟩, ⟨rfl, rfl, rfl, rfl⟩⟩

/-- Claim C1 at its failing input: a get of key a leaves one batch for a in
flight; a following mget of a and b issues exactly one more batch for b and
waits on both promises. When the a batch rejects with a cause and the b
batch fulfils, the aggregation raises a partial result whose success map is
the b entry, as claimed, but whose failure map is keyed by b as well: the
rejected settlement is recorded under the stale loop variable holding the
last caller key, not under the keys of the failed batch, so the key a of the
failed batch appears nowhere. -/
theorem C1_failing_eval :
    (MultiplexingCache.get ("a") muxInit).2.1
        = [MuxEvent.dispatch (DelegateCall.mget ["a"])]
  ∧ (MultiplexingCache.mget ["a", "b"] (MultiplexingCache.get ("a") muxInit).1).2.1
        = [MuxEvent.dispatch (DelegateCall.mget ["b"])]
  ∧ (MultiplexingCache.mget ["a", "b"] (MultiplexingCache.get ("a") muxInit).1).2.2
        = ([0, 1], ["b"])
  ∧ (MultiplexingCache.settleMget ["b"] (MgetOutcome.success [some ("v")]) muxInit).2.2
        = Settled.fulfilled [(("b"), some ("v"))]
  ∧ (MultiplexingCache.settleMget ["a"] (MgetOutcome.failure ⟨("boom")⟩) muxInit).2.2
        = Settled.rejected ⟨("boom")⟩
  ∧ MultiplexingCache.mgetAggregate ["a", "b"]
        [Settled.rejected ⟨("boom")⟩, Settled.fulfilled [(("b"), some ("v"))]]
      = Except.error ⟨[(("b"), some ("v"))], [(("b"), JsError.mk ("boom"))]⟩
  ∧ ¬ ((("a"), JsError.mk ("boom")) ∈
        ([(("b"), JsError.mk ("boom"))] : List (CacheKey × JsError))) := by
  refine ⟨rfl, rfl, rfl, rfl, rfl, rfl, by decide⟩

/-- Claim C5 at its failing input: diagnostics text lacking the db0 line (and
the rss and eviction lines) makes the field parse throw inside the try
block, but the catch of the source builds its rejected promise without
returning it, so getServerInfo resolves with a corrupt record whose missing
fields are NaN (modelled none) instead of failing with a malformed server
info error. -/
theorem C5_swallowed_eval :
    RedisConnection.getServerInfo (("used_memory:100\r\nconnected_clients:2\r\n").toList)
      = ⟨some 100, none, none, some 2, none⟩ := by decide
